import Mathlib

/-!
Verification of the Schedule Message Reconciliation Engine of the
ArsesTennis telegram bot (`src/bot.py`) against its specification.

The SQLite state (tables `group_schedules`, `button_cooldowns`, `stats`)
is embedded as association lists with primary-key semantics:
`INSERT OR REPLACE` deletes the conflicting row and appends a fresh one,
`UPDATE` rewrites matching rows in place, `DELETE` filters rows out.
Timestamps (`time.time()` floats) are modelled as integers: the cooldown
logic only subtracts and compares, which is exact arithmetic on the
ordered time axis.

The telegram transport is external; its observable results are embedded
as the closed enumerations `EditResult` / `SendResult`, mirroring the
exception classification the source performs (`Forbidden`, `BadRequest`
with the substrings "message to edit not found" and
"message is not modified", and any other `telegram.error` which no
handler catches).  Handlers are state transformers on the embedded
database; an exception that escapes a handler is modelled by an
`errored` outcome (manual path) or an `aborted` flag (loops), with the
database as it stood when the exception was raised.
-/

namespace ArsesBot

/-- `BUTTON_COOLDOWN_SECONDS = 5` from the source configuration. -/
def BUTTON_COOLDOWN_SECONDS : Int := 5

/-- `AUTO_UPDATE_INTERVAL_SECONDS = 300` from the source configuration. -/
def AUTO_UPDATE_INTERVAL_SECONDS : Nat := 300

/-- Association-list lookup: the value stored under primary key `k`. -/
def lookup {α β : Type} [DecidableEq α] (l : List (α × β)) (k : α) : Option β :=
  (l.find? (fun p => p.1 = k)).map Prod.snd

/-- `DELETE FROM t WHERE key = k`: drop every row with key `k`. -/
def removeKey {α β : Type} [DecidableEq α] (l : List (α × β)) (k : α) : List (α × β) :=
  l.filter (fun p => ¬ (p.1 = k))

/-- `INSERT OR REPLACE`: the conflicting row is deleted and the new row is
appended (sqlite assigns it a fresh rowid, so it moves to the end of an
unordered `SELECT`). -/
def upsert {α β : Type} [DecidableEq α] (l : List (α × β)) (k : α) (v : β) :
    List (α × β) :=
  removeKey l k ++ [(k, v)]

/-- `INSERT OR IGNORE`: append only when the key is absent. -/
def insertOrIgnore {α β : Type} [DecidableEq α] (l : List (α × β)) (k : α) (v : β) :
    List (α × β) :=
  if (lookup l k).isSome then l else l ++ [(k, v)]

/-- `UPDATE t SET value = value + 1 WHERE key = k`: rows with a different
key (and a database with no row for `k`) are untouched. -/
def bumpKey {α : Type} [DecidableEq α] (l : List (α × Int)) (k : α) :
    List (α × Int) :=
  l.map (fun p => if p.1 = k then (p.1, p.2 + 1) else p)

/-- The persistent state of `bot_state.db`: the three tables created by
`init_db`. -/
structure DB where
  group_schedules : List (Int × Int)
  button_cooldowns : List (Int × Int)
  stats : List (String × Int)

/-- `init_db`: `CREATE TABLE IF NOT EXISTS` keeps existing rows, then the
two counters are inserted with `INSERT OR IGNORE`. -/
def init_db (db : DB) : DB :=
  let s1 := insertOrIgnore db.stats "updates_clicked" 0
  { db with stats := insertOrIgnore s1 "auto_updates_processed" 0 }

/-- `db_set_schedule_message`. -/
def db_set_schedule_message (db : DB) (chat_id message_id : Int) : DB :=
  { db with group_schedules := upsert db.group_schedules chat_id message_id }

/-- `db_get_schedule_message`: `None` when the chat has no row. -/
def db_get_schedule_message (db : DB) (chat_id : Int) : Option Int :=
  lookup db.group_schedules chat_id

/-- `db_remove_schedule_message`. -/
def db_remove_schedule_message (db : DB) (chat_id : Int) : DB :=
  { db with group_schedules := removeKey db.group_schedules chat_id }

/-- `db_get_cooldown`: `0.0` when the chat has no row. -/
def db_get_cooldown (db : DB) (chat_id : Int) : Int :=
  (lookup db.button_cooldowns chat_id).getD 0

/-- `db_set_cooldown`. -/
def db_set_cooldown (db : DB) (chat_id timestamp : Int) : DB :=
  { db with button_cooldowns := upsert db.button_cooldowns chat_id timestamp }

/-- `db_increment_stat`: a plain `UPDATE`, so a key that has no row is
silently left without one. -/
def db_increment_stat (db : DB) (key : String) : DB :=
  { db with stats := bumpKey db.stats key }

/-- `db_get_stat`: `0` when the key has no row. -/
def db_get_stat (db : DB) (key : String) : Int :=
  (lookup db.stats key).getD 0

/-- `db_get_all_active_groups`: `SELECT chat_id FROM group_schedules`. -/
def db_get_all_active_groups (db : DB) : List Int :=
  db.group_schedules.map Prod.fst

/-- One slot of the reservation feed; absent JSON fields are `none`
(`dict.get` defaults are applied at rendering time, as in the source). -/
structure Slot where
  start_time : Option String
  is_available : Option Bool
  user_full_name : Option String

/-- One court entry of the reservation feed. -/
structure Court where
  name : Option String
  time_slots : List Slot

/-- The body lines rendered for one court by `format_schedule_message`. -/
def format_court (court : Court) : String :=
  let court_name := court.name.getD "زمین نامشخص"
  let header := "🎾 **زمین: " ++ court_name ++ "**\n"
  let body :=
    if court.time_slots.isEmpty then
      "هیچ سانسی برای این زمین وجود ندارد.\n"
    else
      String.join (court.time_slots.map (fun slot =>
        let start_time := slot.start_time.getD "N/A"
        if slot.is_available.getD false then
          "✅ `" ++ start_time ++ "` - قابل رزرو\n"
        else
          "❌ `" ++ start_time ++ "` - رزرو شده توسط " ++
            slot.user_full_name.getD "شخصی" ++ "\n"))
  header ++ body ++ "\n"

/-- `format_schedule_message`.  `data = none` is the `None` returned by a
failed `fetch_reservation_data`; Python `if not data` also treats an empty
list as falsy.  The Jalali date string and the clock reading are produced
by external collaborators (`jdatetime`) and enter as parameters; the
`auto_update` flag is accepted and, as in the source body, never read. -/
def format_schedule_message (persian_date_str last_update_time : String)
    (data : Option (List Court)) (_auto_update : Bool) : String :=
  let update_info := "*(بروزرسانی خودکار هر " ++
    toString (AUTO_UPDATE_INTERVAL_SECONDS / 60) ++
    " دقیقه - آخرین آپدیت: " ++ last_update_time ++ ")*\n\n"
  let message_header := "📅 **تایم‌های امروز (" ++ persian_date_str ++ ")**\n\n" ++
    update_info
  let no_slots := "😕 در حال حاضر هیچ تایم قابل رزروی برای امروز ثبت نشده است."
  match data with
  | none => message_header ++ no_slots
  | some courts =>
    if courts.isEmpty then message_header ++ no_slots
    else message_header ++ String.join (courts.map format_court)

/-- Classified result of `bot.edit_message_text` on a tracked message, as
the source distinguishes it: success, the two recognised `BadRequest`
substrings, any other `BadRequest`, `Forbidden`, and any other
`telegram.error` (network / rate-limit), which no handler catches. -/
inductive EditResult where
  | updated
  | notModified
  | notFound
  | otherBadRequest
  | forbidden
  | transient
deriving DecidableEq

/-- Classified result of `bot.send_message`. -/
inductive SendResult where
  | sent (message_id : Int)
  | forbidden
  | badRequest
  | transient
deriving DecidableEq

/-- What one group-refresh button press did, as observable from the chat:
rejected at the admin gate, rejected by the cooldown alert, the
missing-message alert, a successful edit, a recreation (a brand-new
message was sent and recorded), or an exception escaping the handler. -/
inductive ManualOutcome where
  | notAdmin
  | cooldownRejected
  | untracked
  | edited
  | recreated (message_id : Int)
  | errored
deriving DecidableEq

/-- The `update_schedule_group` branch of `button_handler` (lines
249-280): admin gate, cooldown gate, unconditional cooldown write and
`updates_clicked` bump, then the edit attempt whose every `BadRequest`
(including "message is not modified") is answered by sending a fresh
message and re-pointing the tracked id at it.  `Forbidden` and transient
errors are caught nowhere in this handler, and neither is a failure of
the recreation send. -/
def button_handler_group (db : DB) (chat_id : Int) (is_admin : Bool)
    (current_time : Int) (edit : EditResult) (send : SendResult) :
    DB × ManualOutcome :=
  if ¬ is_admin then (db, .notAdmin)
  else if current_time - db_get_cooldown db chat_id < BUTTON_COOLDOWN_SECONDS then
    (db, .cooldownRejected)
  else
    let db1 := db_set_cooldown db chat_id current_time
    let db2 := db_increment_stat db1 "updates_clicked"
    match db_get_schedule_message db2 chat_id with
    | none => (db2, .untracked)
    | some mid =>
      if mid = 0 then (db2, .untracked)
      else
        match edit with
        | .updated => (db2, .edited)
        | .notModified | .notFound | .otherBadRequest =>
          match send with
          | .sent new_id =>
            (db_set_schedule_message db2 chat_id new_id, .recreated new_id)
          | _ => (db2, .errored)
        | .forbidden | .transient => (db2, .errored)

/-- Result of one auto-update sweep: the final database, the list of
(chat, text) pairs for which an edit was actually attempted, and whether
an uncaught exception aborted the loop (leaving later chats unvisited). -/
structure SweepResult where
  db : DB
  attempted : List (Int × String)
  aborted : Bool

/-- The per-chat loop of `auto_update_schedules` (lines 349-369): skip a
chat whose row vanished (or whose stored id is falsy), otherwise edit;
on success bump `auto_updates_processed`, on `Forbidden` drop the chat,
on "message to edit not found" recreate and re-point, on
"message is not modified" and on any other `BadRequest` do nothing; a
transient error, or a failing recreation send, escapes the `try` and
kills the job. -/
def auto_update_loop (edit : Int → Int → EditResult) (send : Int → SendResult)
    (new_text : String) : List Int → DB → SweepResult
  | [], db => ⟨db, [], false⟩
  | chat_id :: rest, db =>
    match db_get_schedule_message db chat_id with
    | none => auto_update_loop edit send new_text rest db
    | some mid =>
      if mid = 0 then auto_update_loop edit send new_text rest db
      else
        match edit chat_id mid with
        | .updated =>
          let r := auto_update_loop edit send new_text rest
            (db_increment_stat db "auto_updates_processed")
          ⟨r.db, (chat_id, new_text) :: r.attempted, r.aborted⟩
        | .notModified =>
          let r := auto_update_loop edit send new_text rest db
          ⟨r.db, (chat_id, new_text) :: r.attempted, r.aborted⟩
        | .otherBadRequest =>
          let r := auto_update_loop edit send new_text rest db
          ⟨r.db, (chat_id, new_text) :: r.attempted, r.aborted⟩
        | .forbidden =>
          let r := auto_update_loop edit send new_text rest
            (db_remove_schedule_message db chat_id)
          ⟨r.db, (chat_id, new_text) :: r.attempted, r.aborted⟩
        | .notFound =>
          match send chat_id with
          | .sent new_id =>
            let r := auto_update_loop edit send new_text rest
              (db_set_schedule_message db chat_id new_id)
            ⟨r.db, (chat_id, new_text) :: r.attempted, r.aborted⟩
          | _ => ⟨db, [(chat_id, new_text)], true⟩
        | .transient => ⟨db, [(chat_id, new_text)], true⟩

/-- `auto_update_schedules`: list the tracked chats, return at once when
there are none, otherwise render once and run the loop.  `new_data` is
the (possibly failed) `fetch_reservation_data` result. -/
def auto_update_schedules (db : DB) (new_data : Option (List Court))
    (persian_date_str last_update_time : String)
    (edit : Int → Int → EditResult) (send : Int → SendResult) : SweepResult :=
  let active_groups := db_get_all_active_groups db
  if active_groups.isEmpty then ⟨db, [], false⟩
  else
    auto_update_loop edit send
      (format_schedule_message persian_date_str last_update_time new_data true)
      active_groups db

/-- Result of the broadcast loop: final database, the success / failure
tallies as they stand when the loop ends (or when an uncaught exception
aborts it), the chats whose send was attempted, and the abort flag. -/
structure BroadcastResult where
  db : DB
  successful_sends : Nat
  failed_sends : Nat
  attempted : List Int
  aborted : Bool

/-- The per-chat loop of `broadcast_command` (lines 328-335): count a
successful send, catch `Forbidden` and `BadRequest` alike by dropping the
chat and counting a failure, and let anything else escape. -/
def broadcast_loop (send : Int → SendResult) : List Int → DB → BroadcastResult
  | [], db => ⟨db, 0, 0, [], false⟩
  | chat_id :: rest, db =>
    match send chat_id with
    | .sent _ =>
      let r := broadcast_loop send rest db
      ⟨r.db, r.successful_sends + 1, r.failed_sends, chat_id :: r.attempted,
        r.aborted⟩
    | .forbidden =>
      let r := broadcast_loop send rest (db_remove_schedule_message db chat_id)
      ⟨r.db, r.successful_sends, r.failed_sends + 1, chat_id :: r.attempted,
        r.aborted⟩
    | .badRequest =>
      let r := broadcast_loop send rest (db_remove_schedule_message db chat_id)
      ⟨r.db, r.successful_sends, r.failed_sends + 1, chat_id :: r.attempted,
        r.aborted⟩
    | .transient => ⟨db, 0, 0, [chat_id], true⟩

/-- The body of `broadcast_command` past the admin gate and the
empty-text check: iterate over `db_get_all_active_groups`. -/
def broadcast_command_body (db : DB) (send : Int → SendResult) : BroadcastResult :=
  broadcast_loop send (db_get_all_active_groups db) db

/-- The rejection reply of the `admin_only` decorator. -/
def rejection_text : String := "⛔️ شما اجازه استفاده از این دستور را ندارید."

/-- The `admin_only` decorator: a non-admin effective user gets exactly
one rejection reply and the wrapped handler is never entered.  A handler
is a state transformer that also yields its replies. -/
def admin_only (ADMIN_IDS : List Int) (handler : DB → DB × List String)
    (user_id : Int) (db : DB) : DB × List String :=
  if user_id ∈ ADMIN_IDS then handler db
  else (db, [rejection_text])

/-! Association-list facts used throughout: the three sqlite row
operations touch only the row of their own primary key. -/

theorem lookup_cons {α β : Type} [DecidableEq α] (a : α) (b : β)
    (l : List (α × β)) (k : α) :
    lookup ((a, b) :: l) k = if a = k then some b else lookup l k := by
  simp only [lookup, List.find?]
  by_cases h : a = k <;> simp [h]

theorem removeKey_cons {α β : Type} [DecidableEq α] (a : α) (b : β)
    (t : List (α × β)) (k : α) :
    removeKey ((a, b) :: t) k =
      if a = k then removeKey t k else (a, b) :: removeKey t k := by
  by_cases h : a = k <;> simp [removeKey, List.filter_cons, h]

theorem lookup_removeKey_self {α β : Type} [DecidableEq α] (l : List (α × β))
    (k : α) : lookup (removeKey l k) k = none := by
  induction l with
  | nil => rfl
  | cons p t ih =>
    obtain ⟨a, b⟩ := p
    rw [removeKey_cons]
    by_cases h : a = k
    · simpa [h] using ih
    · simp [h, lookup_cons, ih]

theorem lookup_removeKey_ne {α β : Type} [DecidableEq α] (l : List (α × β))
    (k x : α) (h : x ≠ k) : lookup (removeKey l k) x = lookup l x := by
  induction l with
  | nil => rfl
  | cons p t ih =>
    obtain ⟨a, b⟩ := p
    rw [removeKey_cons]
    by_cases hak : a = k
    · subst hak
      simpa [lookup_cons, Ne.symm h] using ih
    · simp only [hak, if_false, lookup_cons]
      by_cases hax : a = x <;> simp [hax, ih]

theorem lookup_append {α β : Type} [DecidableEq α] (l₁ l₂ : List (α × β))
    (k : α) :
    lookup (l₁ ++ l₂) k =
      match lookup l₁ k with
      | some v => some v
      | none => lookup l₂ k := by
  induction l₁ with
  | nil => simp [lookup]
  | cons p t ih =>
    obtain ⟨a, b⟩ := p
    by_cases h : a = k <;> simp [lookup_cons, h, ih]

theorem lookup_upsert_self {α β : Type} [DecidableEq α] (l : List (α × β))
    (k : α) (v : β) : lookup (upsert l k v) k = some v := by
  simp [upsert, lookup_append, lookup_removeKey_self, lookup_cons]

theorem lookup_upsert_ne {α β : Type} [DecidableEq α] (l : List (α × β))
    (k x : α) (v : β) (h : x ≠ k) : lookup (upsert l k v) x = lookup l x := by
  rw [upsert, lookup_append, lookup_removeKey_ne l k x h]
  cases hx : lookup l x <;> simp [lookup_cons, Ne.symm h, lookup]

theorem lookup_eq_none_iff {α β : Type} [DecidableEq α] (l : List (α × β))
    (k : α) : lookup l k = none ↔ k ∉ l.map Prod.fst := by
  induction l with
  | nil => simp [lookup]
  | cons p t ih =>
    obtain ⟨a, b⟩ := p
    by_cases h : a = k
    · subst h
      simp [lookup_cons]
    · simp [lookup_cons, h, ih, Ne.symm h]

theorem lookup_isSome_of_mem_keys {α β : Type} [DecidableEq α]
    (l : List (α × β)) (k : α) (h : k ∈ l.map Prod.fst) :
    (lookup l k).isSome = true := by
  cases hx : lookup l k with
  | none => exact absurd ((lookup_eq_none_iff l k).mp hx) (not_not_intro h)
  | some v => rfl

theorem mem_of_lookup_some {α β : Type} [DecidableEq α] (l : List (α × β))
    (k : α) (v : β) (h : lookup l k = some v) : (k, v) ∈ l := by
  unfold lookup at h
  cases hf : List.find? (fun p => decide (p.1 = k)) l with
  | none => rw [hf] at h; simp at h
  | some p =>
    rw [hf] at h
    simp only [Option.map_some', Option.some.injEq] at h
    have hmem := List.mem_of_find?_eq_some hf
    have hpred := List.find?_some hf
    simp only [decide_eq_true_eq] at hpred
    obtain ⟨a, b⟩ := p
    simp only at hpred h
    subst hpred
    subst h
    exact hmem

theorem lookup_bumpKey_self {α : Type} [DecidableEq α] (l : List (α × Int))
    (k : α) : lookup (bumpKey l k) k = (lookup l k).map (· + 1) := by
  induction l with
  | nil => rfl
  | cons p t ih =>
    obtain ⟨a, b⟩ := p
    by_cases h : a = k
    · simp [bumpKey, h, lookup_cons]
    · simp only [bumpKey, List.map_cons, if_neg h]
      simpa [lookup_cons, h, bumpKey] using ih

theorem lookup_bumpKey_ne {α : Type} [DecidableEq α] (l : List (α × Int))
    (k x : α) (h : x ≠ k) : lookup (bumpKey l k) x = lookup l x := by
  induction l with
  | nil => rfl
  | cons p t ih =>
    obtain ⟨a, b⟩ := p
    by_cases hak : a = k
    · subst hak
      simp [bumpKey, lookup_cons, Ne.symm h] at ih ⊢
      simpa [bumpKey] using ih
    · simp [bumpKey, hak, lookup_cons] at ih ⊢
      by_cases hax : a = x <;> simp [hax, ih]

/-! Database-level consequences. -/

theorem sched_set_self (db : DB) (c m : Int) :
    db_get_schedule_message (db_set_schedule_message db c m) c = some m :=
  lookup_upsert_self _ _ _

theorem sched_set_ne (db : DB) (c m x : Int) (h : x ≠ c) :
    db_get_schedule_message (db_set_schedule_message db c m) x =
      db_get_schedule_message db x :=
  lookup_upsert_ne _ _ _ _ h

theorem sched_remove_self (db : DB) (c : Int) :
    db_get_schedule_message (db_remove_schedule_message db c) c = none :=
  lookup_removeKey_self _ _

theorem sched_remove_ne (db : DB) (c x : Int) (h : x ≠ c) :
    db_get_schedule_message (db_remove_schedule_message db c) x =
      db_get_schedule_message db x :=
  lookup_removeKey_ne _ _ _ h

theorem sched_set_cooldown (db : DB) (c t x : Int) :
    db_get_schedule_message (db_set_cooldown db c t) x =
      db_get_schedule_message db x := rfl

theorem sched_increment_stat (db : DB) (k : String) (x : Int) :
    db_get_schedule_message (db_increment_stat db k) x =
      db_get_schedule_message db x := rfl

theorem cooldown_set_self (db : DB) (c t : Int) :
    db_get_cooldown (db_set_cooldown db c t) c = t := by
  simp [db_get_cooldown, db_set_cooldown, lookup_upsert_self]

theorem cooldown_set_ne (db : DB) (c t x : Int) (h : x ≠ c) :
    db_get_cooldown (db_set_cooldown db c t) x = db_get_cooldown db x := by
  simp [db_get_cooldown, db_set_cooldown, lookup_upsert_ne _ _ _ _ h]

theorem cooldown_increment_stat (db : DB) (k : String) (x : Int) :
    db_get_cooldown (db_increment_stat db k) x = db_get_cooldown db x := rfl

theorem cooldown_set_schedule (db : DB) (c m x : Int) :
    db_get_cooldown (db_set_schedule_message db c m) x = db_get_cooldown db x :=
  rfl

theorem stat_increment_self (db : DB) (k : String)
    (hk : (lookup db.stats k).isSome = true) :
    db_get_stat (db_increment_stat db k) k = db_get_stat db k + 1 := by
  obtain ⟨v, hv⟩ := Option.isSome_iff_exists.mp hk
  simp [db_get_stat, db_increment_stat, lookup_bumpKey_self, hv]

theorem stat_present_increment (db : DB) (k : String) :
    (lookup (db_increment_stat db k).stats k).isSome =
      (lookup db.stats k).isSome := by
  simp only [db_increment_stat]
  rw [lookup_bumpKey_self]
  cases lookup db.stats k <;> rfl

theorem stat_present_set_cooldown (db : DB) (c t : Int) (k : String) :
    (lookup (db_set_cooldown db c t).stats k).isSome =
      (lookup db.stats k).isSome := rfl

theorem stat_present_set_schedule (db : DB) (c m : Int) (k : String) :
    (lookup (db_set_schedule_message db c m).stats k).isSome =
      (lookup db.stats k).isSome := rfl

theorem stat_set_cooldown (db : DB) (c t : Int) (k : String) :
    db_get_stat (db_set_cooldown db c t) k = db_get_stat db k := rfl

theorem stat_set_schedule (db : DB) (c m : Int) (k : String) :
    db_get_stat (db_set_schedule_message db c m) k = db_get_stat db k := rfl

/-! Facts about the auto-update sweep loop. -/

/-- Every iteration of the sweep mutates `group_schedules` only at the
key of the chat it is processing, so chats outside the batch are
untouched. -/
theorem auto_loop_untouched (edit : Int → Int → EditResult)
    (send : Int → SendResult) (text : String) :
    ∀ (chats : List Int) (db : DB) (x : Int), x ∉ chats →
    db_get_schedule_message (auto_update_loop edit send text chats db).db x =
      db_get_schedule_message db x := by
  intro chats
  induction chats with
  | nil => intro db x _; rfl
  | cons c rest ih =>
    intro db x hx
    have hxc : x ≠ c := fun h => hx (h ▸ List.mem_cons_self c rest)
    have hxr : x ∉ rest := fun h => hx (List.mem_cons_of_mem c h)
    rcases hc : db_get_schedule_message db c with _ | mid
    · simpa [auto_update_loop, hc] using ih db x hxr
    · by_cases hm : mid = 0
      · simpa [auto_update_loop, hc, hm] using ih db x hxr
      · cases he : edit c mid with
        | updated =>
          simp only [auto_update_loop, hc, if_neg hm, he]
          rw [ih _ x hxr, sched_increment_stat]
        | notModified =>
          simp only [auto_update_loop, hc, if_neg hm, he]
          rw [ih _ x hxr]
        | otherBadRequest =>
          simp only [auto_update_loop, hc, if_neg hm, he]
          rw [ih _ x hxr]
        | forbidden =>
          simp only [auto_update_loop, hc, if_neg hm, he]
          rw [ih _ x hxr, sched_remove_ne _ _ _ hxc]
        | notFound =>
          cases hs : send c with
          | sent nid =>
            simp only [auto_update_loop, hc, if_neg hm, he, hs]
            rw [ih _ x hxr, sched_set_ne _ _ _ _ hxc]
          | forbidden => simp [auto_update_loop, hc, hm, he, hs]
          | badRequest => simp [auto_update_loop, hc, hm, he, hs]
          | transient => simp [auto_update_loop, hc, hm, he, hs]
        | transient => simp [auto_update_loop, hc, hm, he]

/-- What a non-aborted sweep leaves in `group_schedules` for a tracked
chat is decided by that chat's own transport results alone. -/
theorem auto_loop_own_step (edit : Int → Int → EditResult)
    (send : Int → SendResult) (text : String) :
    ∀ (chats : List Int) (db : DB) (c mid : Int), chats.Nodup → c ∈ chats →
    db_get_schedule_message db c = some mid → mid ≠ 0 →
    (auto_update_loop edit send text chats db).aborted = false →
    db_get_schedule_message (auto_update_loop edit send text chats db).db c =
      (match edit c mid, send c with
       | .updated, _ => some mid
       | .notModified, _ => some mid
       | .otherBadRequest, _ => some mid
       | .forbidden, _ => none
       | .notFound, .sent nid => some nid
       | .notFound, _ => some mid
       | .transient, _ => some mid) := by
  intro chats
  induction chats with
  | nil => intro db c mid _ hmem; exact absurd hmem (List.not_mem_nil c)
  | cons a rest ih =>
    intro db c mid hnd hmem hc hm hab
    obtain ⟨hnar, hndr⟩ := List.nodup_cons.mp hnd
    rcases List.mem_cons.mp hmem with hca | hcr
    · subst hca
      have hunt := auto_loop_untouched edit send text rest
      cases he : edit c mid with
      | updated =>
        simp only [auto_update_loop, hc, if_neg hm, he]
        rw [hunt _ c hnar, sched_increment_stat, hc]
      | notModified =>
        simp only [auto_update_loop, hc, if_neg hm, he]
        rw [hunt _ c hnar, hc]
      | otherBadRequest =>
        simp only [auto_update_loop, hc, if_neg hm, he]
        rw [hunt _ c hnar, hc]
      | forbidden =>
        simp only [auto_update_loop, hc, if_neg hm, he]
        rw [hunt _ c hnar, sched_remove_self]
      | notFound =>
        cases hs : send c with
        | sent nid =>
          simp only [auto_update_loop, hc, if_neg hm, he, hs]
          rw [hunt _ c hnar, sched_set_self]
        | forbidden =>
          simp [auto_update_loop, hc, hm, he, hs] at hab
        | badRequest =>
          simp [auto_update_loop, hc, hm, he, hs] at hab
        | transient =>
          simp [auto_update_loop, hc, hm, he, hs] at hab
      | transient =>
        simp [auto_update_loop, hc, hm, he] at hab
    · have hca : c ≠ a := fun h => hnar (h ▸ hcr)
      rcases ha : db_get_schedule_message db a with _ | mida
      · simp only [auto_update_loop, ha] at hab ⊢
        exact ih db c mid hndr hcr hc hm hab
      · by_cases hma : mida = 0
        · simp only [auto_update_loop, ha, hma, if_pos rfl] at hab ⊢
          exact ih db c mid hndr hcr hc hm hab
        · cases he : edit a mida with
          | updated =>
            simp only [auto_update_loop, ha, if_neg hma, he] at hab ⊢
            exact ih _ c mid hndr hcr (by rw [sched_increment_stat, hc]) hm hab
          | notModified =>
            simp only [auto_update_loop, ha, if_neg hma, he] at hab ⊢
            exact ih _ c mid hndr hcr hc hm hab
          | otherBadRequest =>
            simp only [auto_update_loop, ha, if_neg hma, he] at hab ⊢
            exact ih _ c mid hndr hcr hc hm hab
          | forbidden =>
            simp only [auto_update_loop, ha, if_neg hma, he] at hab ⊢
            exact ih _ c mid hndr hcr
              (by rw [sched_remove_ne _ _ _ hca, hc]) hm hab
          | notFound =>
            cases hs : send a with
            | sent nid =>
              simp only [auto_update_loop, ha, if_neg hma, he, hs] at hab ⊢
              exact ih _ c mid hndr hcr
                (by rw [sched_set_ne _ _ _ _ hca, hc]) hm hab
            | forbidden =>
              simp [auto_update_loop, ha, hma, he, hs] at hab
            | badRequest =>
              simp [auto_update_loop, ha, hma, he, hs] at hab
            | transient =>
              simp [auto_update_loop, ha, hma, he, hs] at hab
          | transient =>
            simp [auto_update_loop, ha, hma, he] at hab

/-- When every chat in the batch draws only transport results the loop
body catches (no transient error, and a recreation send that succeeds),
the sweep runs to completion. -/
theorem auto_loop_no_abort (edit : Int → Int → EditResult)
    (send : Int → SendResult) (text : String) :
    ∀ (chats : List Int) (db : DB),
    (∀ c ∈ chats, ∀ m : Int, edit c m ≠ .transient ∧
      (edit c m = .notFound → ∃ k, send c = .sent k)) →
    (auto_update_loop edit send text chats db).aborted = false := by
  intro chats
  induction chats with
  | nil => intro db _; rfl
  | cons a rest ih =>
    intro db hns
    have hna := hns a (List.mem_cons_self a rest)
    have hnr : ∀ c ∈ rest, ∀ m : Int, edit c m ≠ .transient ∧
        (edit c m = .notFound → ∃ k, send c = .sent k) :=
      fun c hc => hns c (List.mem_cons_of_mem a hc)
    rcases ha : db_get_schedule_message db a with _ | mida
    · simpa [auto_update_loop, ha] using ih db hnr
    · by_cases hma : mida = 0
      · simpa [auto_update_loop, ha, hma] using ih db hnr
      · cases he : edit a mida with
        | updated => simpa [auto_update_loop, ha, hma, he] using ih _ hnr
        | notModified => simpa [auto_update_loop, ha, hma, he] using ih _ hnr
        | otherBadRequest => simpa [auto_update_loop, ha, hma, he] using ih _ hnr
        | forbidden => simpa [auto_update_loop, ha, hma, he] using ih _ hnr
        | notFound =>
          obtain ⟨k, hk⟩ := (hna mida).2 he
          simpa [auto_update_loop, ha, hma, he, hk] using ih _ hnr
        | transient => exact absurd he (hna mida).1

/-- Under the same conditions, an edit is attempted (with the shared
rendered text) for every chat of the batch that is tracked with a
non-falsy message id: no chat is skipped because of another chat. -/
theorem auto_loop_attempts (edit : Int → Int → EditResult)
    (send : Int → SendResult) (text : String) :
    ∀ (chats : List Int) (db : DB), chats.Nodup →
    (∀ c ∈ chats, ∀ m : Int, edit c m ≠ .transient ∧
      (edit c m = .notFound → ∃ k, send c = .sent k)) →
    ∀ c ∈ chats, ∀ mid : Int,
    db_get_schedule_message db c = some mid → mid ≠ 0 →
    (c, text) ∈ (auto_update_loop edit send text chats db).attempted := by
  intro chats
  induction chats with
  | nil => intro db _ _ c hc; exact absurd hc (List.not_mem_nil c)
  | cons a rest ih =>
    intro db hnd hns c hmem mid hc hm
    obtain ⟨hnar, hndr⟩ := List.nodup_cons.mp hnd
    have hnr : ∀ x ∈ rest, ∀ m : Int, edit x m ≠ .transient ∧
        (edit x m = .notFound → ∃ k, send x = .sent k) :=
      fun x hx => hns x (List.mem_cons_of_mem a hx)
    rcases List.mem_cons.mp hmem with hca | hcr
    · subst hca
      cases he : edit c mid with
      | updated => simp [auto_update_loop, hc, hm, he]
      | notModified => simp [auto_update_loop, hc, hm, he]
      | otherBadRequest => simp [auto_update_loop, hc, hm, he]
      | forbidden => simp [auto_update_loop, hc, hm, he]
      | notFound =>
        obtain ⟨k, hk⟩ := (hns c (List.mem_cons_self c rest) mid).2 he
        simp [auto_update_loop, hc, hm, he, hk]
      | transient => exact absurd he (hns c (List.mem_cons_self c rest) mid).1
    · have hca : c ≠ a := fun h => hnar (h ▸ hcr)
      rcases ha : db_get_schedule_message db a with _ | mida
      · simp only [auto_update_loop, ha]
        exact ih db hndr hnr c hcr mid hc hm
      · by_cases hma : mida = 0
        · simp only [auto_update_loop, ha, hma, if_pos rfl]
          exact ih db hndr hnr c hcr mid hc hm
        · cases he : edit a mida with
          | updated =>
            simp only [auto_update_loop, ha, if_neg hma, he]
            exact List.mem_cons_of_mem _
              (ih _ hndr hnr c hcr mid (by rw [sched_increment_stat, hc]) hm)
          | notModified =>
            simp only [auto_update_loop, ha, if_neg hma, he]
            exact List.mem_cons_of_mem _ (ih _ hndr hnr c hcr mid hc hm)
          | otherBadRequest =>
            simp only [auto_update_loop, ha, if_neg hma, he]
            exact List.mem_cons_of_mem _ (ih _ hndr hnr c hcr mid hc hm)
          | forbidden =>
            simp only [auto_update_loop, ha, if_neg hma, he]
            exact List.mem_cons_of_mem _
              (ih _ hndr hnr c hcr mid (by rw [sched_remove_ne _ _ _ hca, hc]) hm)
          | notFound =>
            obtain ⟨k, hk⟩ := (hns a (List.mem_cons_self a rest) mida).2 he
            simp only [auto_update_loop, ha, if_neg hma, he, hk]
            exact List.mem_cons_of_mem _
              (ih _ hndr hnr c hcr mid (by rw [sched_set_ne _ _ _ _ hca, hc]) hm)
          | transient =>
            exact absurd he (hns a (List.mem_cons_self a rest) mida).1

/-! Facts about the broadcast loop. -/

/-- A broadcast iteration mutates `group_schedules` only at the key of
the chat it is sending to. -/
theorem broadcast_untouched (send : Int → SendResult) :
    ∀ (chats : List Int) (db : DB) (x : Int), x ∉ chats →
    db_get_schedule_message (broadcast_loop send chats db).db x =
      db_get_schedule_message db x := by
  intro chats
  induction chats with
  | nil => intro db x _; rfl
  | cons a rest ih =>
    intro db x hx
    have hxa : x ≠ a := fun h => hx (h ▸ List.mem_cons_self a rest)
    have hxr : x ∉ rest := fun h => hx (List.mem_cons_of_mem a h)
    cases hs : send a with
    | sent m =>
      simp only [broadcast_loop, hs]
      exact ih db x hxr
    | forbidden =>
      simp only [broadcast_loop, hs]
      rw [ih _ x hxr, sched_remove_ne _ _ _ hxa]
    | badRequest =>
      simp only [broadcast_loop, hs]
      rw [ih _ x hxr, sched_remove_ne _ _ _ hxa]
    | transient => simp [broadcast_loop, hs]

/-- When no send raises an uncaught (transient) error, the broadcast
loop attempts exactly the chats of the batch in order, its two tallies
sum to the batch size, and each chat keeps its tracking iff its own send
succeeded. -/
theorem broadcast_props (send : Int → SendResult) :
    ∀ (chats : List Int) (db : DB), chats.Nodup →
    (∀ c ∈ chats, send c ≠ .transient) →
    (broadcast_loop send chats db).aborted = false ∧
    (broadcast_loop send chats db).attempted = chats ∧
    (broadcast_loop send chats db).successful_sends +
      (broadcast_loop send chats db).failed_sends = chats.length ∧
    ∀ c ∈ chats,
      db_get_schedule_message (broadcast_loop send chats db).db c =
        (match send c with
         | .sent _ => db_get_schedule_message db c
         | _ => none) := by
  intro chats
  induction chats with
  | nil =>
    intro db _ _
    exact ⟨rfl, rfl, rfl, fun c hc => absurd hc (List.not_mem_nil c)⟩
  | cons a rest ih =>
    intro db hnd hnt
    obtain ⟨hnar, hndr⟩ := List.nodup_cons.mp hnd
    have hntr : ∀ x ∈ rest, send x ≠ .transient :=
      fun x hx => hnt x (List.mem_cons_of_mem a hx)
    cases hs : send a with
    | sent m =>
      obtain ⟨h1, h2, h3, h4⟩ := ih db hndr hntr
      refine ⟨by simpa [broadcast_loop, hs] using h1,
        by simpa [broadcast_loop, hs] using h2, ?_, ?_⟩
      · simp only [broadcast_loop, hs, List.length_cons]
        omega
      · intro c hmem
        rcases List.mem_cons.mp hmem with hca | hcr
        · subst hca
          simp only [broadcast_loop, hs]
          rw [broadcast_untouched send rest db c hnar]
        · simp only [broadcast_loop, hs]
          exact h4 c hcr
    | forbidden =>
      obtain ⟨h1, h2, h3, h4⟩ := ih (db_remove_schedule_message db a) hndr hntr
      refine ⟨by simpa [broadcast_loop, hs] using h1,
        by simpa [broadcast_loop, hs] using h2, ?_, ?_⟩
      · simp only [broadcast_loop, hs, List.length_cons]
        omega
      · intro c hmem
        rcases List.mem_cons.mp hmem with hca | hcr
        · subst hca
          simp only [broadcast_loop, hs]
          rw [broadcast_untouched send rest _ c hnar, sched_remove_self]
        · have hca : c ≠ a := fun h => hnar (h ▸ hcr)
          have := h4 c hcr
          rw [sched_remove_ne _ _ _ hca] at this
          simp only [broadcast_loop, hs]
          exact this
    | badRequest =>
      obtain ⟨h1, h2, h3, h4⟩ := ih (db_remove_schedule_message db a) hndr hntr
      refine ⟨by simpa [broadcast_loop, hs] using h1,
        by simpa [broadcast_loop, hs] using h2, ?_, ?_⟩
      · simp only [broadcast_loop, hs, List.length_cons]
        omega
      · intro c hmem
        rcases List.mem_cons.mp hmem with hca | hcr
        · subst hca
          simp only [broadcast_loop, hs]
          rw [broadcast_untouched send rest _ c hnar, sched_remove_self]
        · have hca : c ≠ a := fun h => hnar (h ▸ hcr)
          have := h4 c hcr
          rw [sched_remove_ne _ _ _ hca] at this
          simp only [broadcast_loop, hs]
          exact this
    | transient => exact absurd hs (hnt a (List.mem_cons_self a rest))

/-! Facts about the manual-refresh handler. -/

/-- A sequence of manual refresh button presses on one chat: each step
supplies the presser's admin status, the press time, and the transport
results the attempt would draw.  Returns the final database and the
outcome of every press. -/
def manual_refresh_seq (chat_id : Int) :
    List (Bool × Int × EditResult × SendResult) → DB → DB × List ManualOutcome
  | [], db => (db, [])
  | (adm, t, e, s) :: rest, db =>
    let r := button_handler_group db chat_id adm t e s
    let rr := manual_refresh_seq chat_id rest r.1
    (rr.1, r.2 :: rr.2)

/-- One button press bumps `updates_clicked` exactly when it gets past
the admin gate and the cooldown gate, whatever happens afterwards, and
it never deletes the counter row. -/
theorem button_stat_effect (db : DB) (c : Int) (adm : Bool) (t : Int)
    (e : EditResult) (s : SendResult)
    (hk : (lookup db.stats "updates_clicked").isSome = true) :
    db_get_stat (button_handler_group db c adm t e s).1 "updates_clicked" =
      db_get_stat db "updates_clicked" +
        (if (button_handler_group db c adm t e s).2 = ManualOutcome.notAdmin ∨
            (button_handler_group db c adm t e s).2 =
              ManualOutcome.cooldownRejected
         then 0 else 1) ∧
    (lookup (button_handler_group db c adm t e s).1.stats
      "updates_clicked").isSome = true := by
  cases adm with
  | false => simp [button_handler_group, hk]
  | true =>
    by_cases hcd : t - db_get_cooldown db c < BUTTON_COOLDOWN_SECONDS
    · simp [button_handler_group, hcd, hk]
    · have hstat2 : db_get_stat
          (db_increment_stat (db_set_cooldown db c t) "updates_clicked")
          "updates_clicked" = db_get_stat db "updates_clicked" + 1 := by
        rw [stat_increment_self _ _
          (by rw [stat_present_set_cooldown]; exact hk), stat_set_cooldown]
      have hp : (lookup (db_increment_stat (db_set_cooldown db c t)
          "updates_clicked").stats "updates_clicked").isSome = true := by
        rw [stat_present_increment, stat_present_set_cooldown]
        exact hk
      rcases hsch : db_get_schedule_message
          (db_increment_stat (db_set_cooldown db c t) "updates_clicked") c
          with _ | mid
      · simp [button_handler_group, hcd, hsch, hstat2, hp]
      · by_cases hm : mid = 0
        · simp [button_handler_group, hcd, hsch, hm, hstat2, hp]
        · cases e with
          | updated => simp [button_handler_group, hcd, hsch, hm, hstat2, hp]
          | forbidden => simp [button_handler_group, hcd, hsch, hm, hstat2, hp]
          | transient => simp [button_handler_group, hcd, hsch, hm, hstat2, hp]
          | notModified =>
            cases s <;>
              simp [button_handler_group, hcd, hsch, hm, hstat2, hp,
                stat_set_schedule, stat_present_set_schedule]
          | notFound =>
            cases s <;>
              simp [button_handler_group, hcd, hsch, hm, hstat2, hp,
                stat_set_schedule, stat_present_set_schedule]
          | otherBadRequest =>
            cases s <;>
              simp [button_handler_group, hcd, hsch, hm, hstat2, hp,
                stat_set_schedule, stat_present_set_schedule]

/-- When at least one chat is tracked, the sweep is exactly the loop over
`db_get_all_active_groups` with the once-rendered text. -/
theorem auto_update_schedules_eq_loop (db : DB) (data : Option (List Court))
    (pd lt : String) (edit : Int → Int → EditResult) (send : Int → SendResult)
    (h : db_get_all_active_groups db ≠ []) :
    auto_update_schedules db data pd lt edit send =
      auto_update_loop edit send (format_schedule_message pd lt data true)
        (db_get_all_active_groups db) db := by
  have hne : (db_get_all_active_groups db).isEmpty = false := by
    cases hg : db_get_all_active_groups db
    · exact absurd hg h
    · rfl
  simp [auto_update_schedules, hne]

/-- A tracked chat makes the sweep work list nonempty. -/
theorem active_ne_nil_of_mem (db : DB) (c : Int)
    (h : c ∈ db_get_all_active_groups db) : db_get_all_active_groups db ≠ [] :=
  fun hnil => List.not_mem_nil c (hnil ▸ h)

/-- A chat with a `group_schedules` row is on the sweep work list. -/
theorem mem_active_of_lookup (db : DB) (c mid : Int)
    (h : db_get_schedule_message db c = some mid) :
    c ∈ db_get_all_active_groups db := by
  have := mem_of_lookup_some db.group_schedules c mid h
  exact List.mem_map_of_mem Prod.fst this

/-! ## The claims -/

/-- State for the C1 run: chat 1 tracked with message 10, cooldown long
expired, both counters present at 0. -/
def dbC1 : DB :=
  ⟨[(1, 10)], [(1, 0)],
    [("updates_clicked", 0), ("auto_updates_processed", 0)]⟩

/-- C1: the claim says a manual refresh whose fresh text equals the
remote text is a no-op — outcome Unchanged, tracked id kept, no new
message, no counter bump.  Evaluating the code at that input instead:
the "message is not modified" `BadRequest` falls into the handler's
catch-all, a brand-new message 11 is sent, the tracked id is replaced by
11, and `updates_clicked` was already bumped to 1 before the edit. -/
theorem c1_same_text_manual_refresh_recreates :
    (button_handler_group dbC1 1 true 100 .notModified (.sent 11)).2 =
      ManualOutcome.recreated 11 ∧
    db_get_schedule_message
      (button_handler_group dbC1 1 true 100 .notModified (.sent 11)).1 1 =
      some 11 ∧
    db_get_stat
      (button_handler_group dbC1 1 true 100 .notModified (.sent 11)).1
      "updates_clicked" = 1 := by
  decide

/-- State for the C2 runs: no chat tracked, counters present at 0. -/
def dbC2 : DB := ⟨[], [], [("updates_clicked", 0), ("auto_updates_processed", 0)]⟩

/-- C2 counterexample: a manual refresh on an untracked chat ends with
outcome Untracked, yet `updates_clicked` is incremented — the claim says
a refresh with outcome Untracked does not increment it. -/
theorem c2_untracked_refresh_increments :
    (button_handler_group dbC2 1 true 100 .updated (.sent 1)).2 =
      ManualOutcome.untracked ∧
    db_get_stat (button_handler_group dbC2 1 true 100 .updated (.sent 1)).1
      "updates_clicked" =
      db_get_stat dbC2 "updates_clicked" + 1 := by
  decide

/-- C2 (amended): over any sequence of manual refreshes on a chat,
`updates_clicked` grows by exactly the number of presses that got past
the admin and cooldown gates — hence by exactly N over N presses whose
outcome is Updated, but gate-passing presses whose outcome is Untracked,
Unchanged or Failed increment it too. -/
theorem c2_counter_counts_gate_passes (c : Int)
    (steps : List (Bool × Int × EditResult × SendResult)) (db : DB)
    (hk : (lookup db.stats "updates_clicked").isSome = true) :
    db_get_stat (manual_refresh_seq c steps db).1 "updates_clicked" =
      db_get_stat db "updates_clicked" +
        ((manual_refresh_seq c steps db).2.countP
          (fun o => decide (o ≠ ManualOutcome.notAdmin ∧
            o ≠ ManualOutcome.cooldownRejected)) : Int) := by
  induction steps generalizing db with
  | nil => simp [manual_refresh_seq]
  | cons step rest ih =>
    obtain ⟨adm, t, e, s⟩ := step
    obtain ⟨heff, hpres⟩ := button_stat_effect db c adm t e s hk
    have ihh := ih (button_handler_group db c adm t e s).1 hpres
    simp only [manual_refresh_seq, List.countP_cons]
    rw [ihh, heff]
    cases ho : (button_handler_group db c adm t e s).2 <;>
      simp [ho] <;> omega

/-- Witness state for C2: chat 1 tracked with message 10. -/
def dbC2w : DB :=
  ⟨[(1, 10)], [], [("updates_clicked", 0), ("auto_updates_processed", 0)]⟩

/-- C2 witness: two gate-passing Updated presses add exactly 2. -/
theorem c2_counter_counts_gate_passes_witness :
    db_get_stat (manual_refresh_seq 1
      [(true, 100, .updated, .sent 5), (true, 200, .updated, .sent 6)]
      dbC2w).1 "updates_clicked" =
      db_get_stat dbC2w "updates_clicked" +
        ((manual_refresh_seq 1
          [(true, 100, .updated, .sent 5), (true, 200, .updated, .sent 6)]
          dbC2w).2.countP
          (fun o => decide (o ≠ ManualOutcome.notAdmin ∧
            o ≠ ManualOutcome.cooldownRejected)) : Int) :=
  c2_counter_counts_gate_passes 1
    [(true, 100, .updated, .sent 5), (true, 200, .updated, .sent 6)]
    dbC2w (by decide)

/-- C3 (confirmed): a tracked chat whose message is gone draws the
"message to edit not found" `BadRequest`; on the next reconcile of that
chat — a gate-passing manual refresh, or a non-aborted sweep — a
brand-new message is sent, its id is stored for the chat, and the manual
path reports Recreated: tracking is never lost to message deletion. -/
theorem c3_deleted_message_recreated (db : DB) (c mid nid t : Int)
    (data : Option (List Court)) (pd lt : String)
    (edit : Int → Int → EditResult) (send : Int → SendResult)
    (hmid : db_get_schedule_message db c = some mid) (h0 : mid ≠ 0)
    (hcd : ¬ (t - db_get_cooldown db c < BUTTON_COOLDOWN_SECONDS))
    (hnd : (db.group_schedules.map Prod.fst).Nodup)
    (he : edit c mid = .notFound) (hsend : send c = .sent nid)
    (hab : (auto_update_schedules db data pd lt edit send).aborted = false) :
    (button_handler_group db c true t .notFound (.sent nid)).2 =
      ManualOutcome.recreated nid ∧
    db_get_schedule_message
      (button_handler_group db c true t .notFound (.sent nid)).1 c =
      some nid ∧
    db_get_schedule_message
      (auto_update_schedules db data pd lt edit send).db c = some nid := by
  have hm2 : db_get_schedule_message
      (db_increment_stat (db_set_cooldown db c t) "updates_clicked") c =
        some mid := by
    rw [sched_increment_stat, sched_set_cooldown, hmid]
  refine ⟨?_, ?_, ?_⟩
  · simp [button_handler_group, hcd, hm2, h0]
  · simp [button_handler_group, hcd, hm2, h0, sched_set_self]
  · have hmem : c ∈ db_get_all_active_groups db :=
      mem_active_of_lookup db c mid hmid
    have hnd2 : (db_get_all_active_groups db).Nodup := hnd
    rw [auto_update_schedules_eq_loop db data pd lt edit send
      (active_ne_nil_of_mem db c hmem)] at hab ⊢
    rw [auto_loop_own_step edit send (format_schedule_message pd lt data true)
      (db_get_all_active_groups db) db c mid hnd2 hmem hmid h0 hab]
    simp [he, hsend]

/-- Witness state for C3: chat 1 tracked with (deleted) message 10. -/
def dbC3w : DB :=
  ⟨[(1, 10)], [], [("updates_clicked", 0), ("auto_updates_processed", 0)]⟩

/-- Transport for the C3 witness: every edit reports the target missing,
every send succeeds with message 11. -/
def editC3w : Int → Int → EditResult := fun _ _ => .notFound

/-- Send result for the C3 witness. -/
def sendC3w : Int → SendResult := fun _ => .sent 11

/-- C3 witness at chat 1, old message 10, new message 11. -/
theorem c3_deleted_message_recreated_witness :
    (button_handler_group dbC3w 1 true 100 .notFound (.sent 11)).2 =
      ManualOutcome.recreated 11 ∧
    db_get_schedule_message
      (button_handler_group dbC3w 1 true 100 .notFound (.sent 11)).1 1 =
      some 11 ∧
    db_get_schedule_message
      (auto_update_schedules dbC3w none "d" "t" editC3w sendC3w).db 1 =
      some 11 :=
  c3_deleted_message_recreated dbC3w 1 10 11 100 none "d" "t" editC3w sendC3w
    (by decide) (by decide) (by decide) (by decide) (by decide) (by decide)
    (by decide)

/-- State for the C4 counterexample: chat 1 tracked with message 10. -/
def dbC4 : DB :=
  ⟨[(1, 10)], [], [("updates_clicked", 0), ("auto_updates_processed", 0)]⟩

/-- C4 counterexample: a manual refresh observes the permission-denied
(`Forbidden`) transport result, but `button_handler` has no handler for
it — the exception escapes, the tracked message is not cleared, and the
chat is still in `listTrackedChats()` afterwards, contradicting the
claim for the manual invocation. -/
theorem c4_manual_forbidden_keeps_tracking :
    (button_handler_group dbC4 1 true 100 .forbidden (.sent 99)).2 =
      ManualOutcome.errored ∧
    db_get_schedule_message
      (button_handler_group dbC4 1 true 100 .forbidden (.sent 99)).1 1 =
      some 10 ∧
    1 ∈ db_get_all_active_groups
      (button_handler_group dbC4 1 true 100 .forbidden (.sent 99)).1 := by
  decide

/-- C4 (amended): only the sweep clears tracking on `Forbidden`.  A
non-aborted sweep whose edit for a tracked chat draws `Forbidden` leaves
that chat without a tracked message and off `listTrackedChats()`, and an
untracked chat stays untracked through any further sweep and any manual
refresh, until an explicit re-initialisation; the manual path, by
contrast, lets `Forbidden` escape without clearing (see the
counterexample). -/
theorem c4_sweep_forbidden_clears (db db2 : DB) (c mid t : Int)
    (data : Option (List Court)) (pd lt : String)
    (edit : Int → Int → EditResult) (send : Int → SendResult)
    (e2 : EditResult) (s2 : SendResult)
    (hnd : (db.group_schedules.map Prod.fst).Nodup)
    (hmid : db_get_schedule_message db c = some mid) (h0 : mid ≠ 0)
    (hf : edit c mid = .forbidden)
    (hab : (auto_update_schedules db data pd lt edit send).aborted = false)
    (hn2 : db_get_schedule_message db2 c = none) :
    db_get_schedule_message
      (auto_update_schedules db data pd lt edit send).db c = none ∧
    c ∉ db_get_all_active_groups
      (auto_update_schedules db data pd lt edit send).db ∧
    db_get_schedule_message
      (auto_update_schedules db2 data pd lt edit send).db c = none ∧
    db_get_schedule_message (button_handler_group db2 c true t e2 s2).1 c =
      none := by
  have hmem : c ∈ db_get_all_active_groups db :=
    mem_active_of_lookup db c mid hmid
  have hnone : db_get_schedule_message
      (auto_update_schedules db data pd lt edit send).db c = none := by
    have hnd2 : (db_get_all_active_groups db).Nodup := hnd
    rw [auto_update_schedules_eq_loop db data pd lt edit send
      (active_ne_nil_of_mem db c hmem)] at hab ⊢
    rw [auto_loop_own_step edit send (format_schedule_message pd lt data true)
      (db_get_all_active_groups db) db c mid hnd2 hmem hmid h0 hab]
    simp [hf]
  refine ⟨hnone, ?_, ?_, ?_⟩
  · exact (lookup_eq_none_iff _ c).mp hnone
  · have hout : c ∉ db_get_all_active_groups db2 :=
      (lookup_eq_none_iff _ c).mp hn2
    by_cases hememp : db_get_all_active_groups db2 = []
    · simp only [auto_update_schedules, hememp]
      simpa using hn2
    · rw [auto_update_schedules_eq_loop db2 data pd lt edit send hememp]
      rw [auto_loop_untouched edit send _ _ db2 c hout]
      exact hn2
  · by_cases hcd : t - db_get_cooldown db2 c < BUTTON_COOLDOWN_SECONDS
    · simpa [button_handler_group, hcd] using hn2
    · have hn2b : db_get_schedule_message
          (db_increment_stat (db_set_cooldown db2 c t) "updates_clicked") c =
            none := by
        rw [sched_increment_stat, sched_set_cooldown, hn2]
      simp [button_handler_group, hcd, hn2b]

/-- Witness state for C4: chats 1 and 2 tracked. -/
def dbC4w : DB :=
  ⟨[(1, 10), (2, 20)], [],
    [("updates_clicked", 0), ("auto_updates_processed", 0)]⟩

/-- Transport for the C4 witness: chat 1 draws `Forbidden`, chat 2
updates fine. -/
def editC4w : Int → Int → EditResult :=
  fun c _ => if c = 1 then .forbidden else .updated

/-- Send result for the C4 witness. -/
def sendC4w : Int → SendResult := fun _ => .sent 5

/-- Untracked state for the C4 witness. -/
def dbC4w2 : DB := ⟨[], [], []⟩

/-- C4 witness at chat 1. -/
theorem c4_sweep_forbidden_clears_witness :
    db_get_schedule_message
      (auto_update_schedules dbC4w none "d" "t" editC4w sendC4w).db 1 = none ∧
    1 ∉ db_get_all_active_groups
      (auto_update_schedules dbC4w none "d" "t" editC4w sendC4w).db ∧
    db_get_schedule_message
      (auto_update_schedules dbC4w2 none "d" "t" editC4w sendC4w).db 1 = none ∧
    db_get_schedule_message
      (button_handler_group dbC4w2 1 true 100 .updated (.sent 9)).1 1 = none :=
  c4_sweep_forbidden_clears dbC4w dbC4w2 1 10 100 none "d" "t" editC4w sendC4w
    .updated (.sent 9) (by decide) (by decide) (by decide) (by decide)
    (by decide) (by decide)

/-- State for the C5 counterexample: chats 1 and 2 both tracked. -/
def dbC5 : DB :=
  ⟨[(1, 10), (2, 20)], [],
    [("updates_clicked", 0), ("auto_updates_processed", 0)]⟩

/-- Transport for the C5 counterexample: chat 1's edit fails with a
transient (network) error, chat 2's would succeed. -/
def editC5 : Int → Int → EditResult :=
  fun c _ => if c = 1 then .transient else .updated

/-- Send result for the C5 counterexample. -/
def sendC5 : Int → SendResult := fun _ => .sent 99

/-- C5 counterexample: the claim says every other chat in the batch is
still attempted if one chat's transport call fails "transiently or
otherwise".  In the sweep over [1, 2], chat 1's transient failure
escapes the `try` (only `Forbidden` and `BadRequest` are caught), the
job dies, chat 2 is never attempted and its success is never applied. -/
theorem c5_transient_aborts_batch :
    (auto_update_loop editC5 sendC5 "x" [1, 2] dbC5).aborted = true ∧
    (auto_update_loop editC5 sendC5 "x" [1, 2] dbC5).attempted.map Prod.fst =
      [1] ∧
    db_get_stat (auto_update_loop editC5 sendC5 "x" [1, 2] dbC5).db
      "auto_updates_processed" = 0 := by
  decide

/-- C5 (amended): isolation holds for the failure kinds the loop
classifies.  When every chat of the batch draws only caught results
(`Forbidden` or any `BadRequest`, and recreation sends succeed), the
sweep never aborts and an edit is attempted for every tracked chat,
regardless of the other chats' failures; a transient failure, however,
aborts the remainder of the batch (see the counterexample). -/
theorem c5_sweep_isolation_classified (db : DB) (data : Option (List Court))
    (pd lt : String) (edit : Int → Int → EditResult) (send : Int → SendResult)
    (hnd : (db.group_schedules.map Prod.fst).Nodup)
    (hns : ∀ c ∈ db_get_all_active_groups db, ∀ m : Int,
      edit c m ≠ .transient ∧ (edit c m = .notFound → ∃ k, send c = .sent k)) :
    (auto_update_schedules db data pd lt edit send).aborted = false ∧
    ∀ c ∈ db_get_all_active_groups db, ∀ mid : Int,
      db_get_schedule_message db c = some mid → mid ≠ 0 →
      (c, format_schedule_message pd lt data true) ∈
        (auto_update_schedules db data pd lt edit send).attempted := by
  by_cases hememp : db_get_all_active_groups db = []
  · constructor
    · simp [auto_update_schedules, hememp]
    · intro c hc
      rw [hememp] at hc
      exact absurd hc (List.not_mem_nil c)
  · rw [auto_update_schedules_eq_loop db data pd lt edit send hememp]
    constructor
    · exact auto_loop_no_abort edit send _ _ db hns
    · intro c hc mid hcm hm
      have hnd2 : (db_get_all_active_groups db).Nodup := hnd
      exact auto_loop_attempts edit send _ _ db hnd2 hns c hc mid hcm hm

/-- Transport for the C5 witness: chat 1 draws `Forbidden`, chat 2 a
plain `BadRequest`; both are caught, so both chats are attempted. -/
def editC5w : Int → Int → EditResult :=
  fun c _ => if c = 1 then .forbidden else .otherBadRequest

/-- Send result for the C5 witness. -/
def sendC5w : Int → SendResult := fun _ => .sent 50

/-- C5 witness: with only classified failures on [1, 2], the sweep does
not abort and chat 2 is attempted despite chat 1's failure. -/
theorem c5_sweep_isolation_classified_witness :
    (auto_update_schedules dbC5 none "d" "t" editC5w sendC5w).aborted = false ∧
    (2, format_schedule_message "d" "t" none true) ∈
      (auto_update_schedules dbC5 none "d" "t" editC5w sendC5w).attempted :=
  ⟨(c5_sweep_isolation_classified dbC5 none "d" "t" editC5w sendC5w
      (by decide) (by intro c hc m; fin_cases hc <;> simp [editC5w])).1,
    (c5_sweep_isolation_classified dbC5 none "d" "t" editC5w sendC5w
      (by decide) (by intro c hc m; fin_cases hc <;> simp [editC5w])).2
      2 (by decide) 20 (by decide) (by decide)⟩

/-- Projection: bumping a counter leaves the cooldown table alone. -/
theorem cooldowns_increment_stat (db : DB) (k : String) :
    (db_increment_stat db k).button_cooldowns = db.button_cooldowns := rfl

/-- Projection: re-pointing a tracked message leaves the cooldown table
alone. -/
theorem cooldowns_set_schedule (db : DB) (c m : Int) :
    (db_set_schedule_message db c m).button_cooldowns = db.button_cooldowns :=
  rfl

/-- Projection: `db_set_cooldown` upserts the chat's cooldown row. -/
theorem cooldowns_set_cooldown (db : DB) (c t : Int) :
    (db_set_cooldown db c t).button_cooldowns =
      upsert db.button_cooldowns c t := rfl

/-- Past the gates, whatever the transport does, the handler has written
`t` into the chat's cooldown row and its outcome is not the cooldown
rejection. -/
theorem button_cooldowns_after (db : DB) (c t : Int) (e : EditResult)
    (s : SendResult)
    (hcd : ¬ (t - db_get_cooldown db c < BUTTON_COOLDOWN_SECONDS)) :
    (button_handler_group db c true t e s).1.button_cooldowns =
      upsert db.button_cooldowns c t ∧
    (button_handler_group db c true t e s).2 ≠
      ManualOutcome.cooldownRejected := by
  rcases hsch : db_get_schedule_message
      (db_increment_stat (db_set_cooldown db c t) "updates_clicked") c
      with _ | mid
  · simp [button_handler_group, hcd, hsch, cooldowns_increment_stat,
      cooldowns_set_cooldown]
  · by_cases hm : mid = 0
    · simp [button_handler_group, hcd, hsch, hm, cooldowns_increment_stat,
        cooldowns_set_cooldown]
    · cases e <;> cases s <;>
        simp [button_handler_group, hcd, hsch, hm, cooldowns_increment_stat,
          cooldowns_set_cooldown, cooldowns_set_schedule]

/-- C6 (confirmed): the manual-refresh cooldown check on a chat rejects
the press exactly when `now` minus the stored timestamp is below
`BUTTON_COOLDOWN_SECONDS`; a rejection leaves the whole store untouched,
an acquisition records `now` as the chat's cooldown timestamp, and the
cooldown row of any other chat is never affected. -/
theorem c6_throttle_gate (db : DB) (c c2 t : Int) (e : EditResult)
    (s : SendResult) (hne : c2 ≠ c) :
    ((button_handler_group db c true t e s).2 =
        ManualOutcome.cooldownRejected ↔
      t - db_get_cooldown db c < BUTTON_COOLDOWN_SECONDS) ∧
    (if t - db_get_cooldown db c < BUTTON_COOLDOWN_SECONDS then
      (button_handler_group db c true t e s).1 = db
    else db_get_cooldown (button_handler_group db c true t e s).1 c = t) ∧
    db_get_cooldown (button_handler_group db c true t e s).1 c2 =
      db_get_cooldown db c2 := by
  by_cases hcd : t - db_get_cooldown db c < BUTTON_COOLDOWN_SECONDS
  · refine ⟨?_, ?_, ?_⟩ <;> simp [button_handler_group, hcd]
  · obtain ⟨hcool, hout⟩ := button_cooldowns_after db c t e s hcd
    refine ⟨iff_of_false hout hcd, ?_, ?_⟩
    · rw [if_neg hcd]
      simp [db_get_cooldown, hcool, lookup_upsert_self]
    · simp [db_get_cooldown, hcool, lookup_upsert_ne _ _ _ _ hne]

/-- Witness state for C6: chat 1 last refreshed at time 50. -/
def dbC6w : DB := ⟨[], [(1, 50)], []⟩

/-- C6 witness at chat 1, other chat 2, press time 100. -/
theorem c6_throttle_gate_witness :
    ((button_handler_group dbC6w 1 true 100 .updated (.sent 3)).2 =
        ManualOutcome.cooldownRejected ↔
      100 - db_get_cooldown dbC6w 1 < BUTTON_COOLDOWN_SECONDS) ∧
    (if (100 : Int) - db_get_cooldown dbC6w 1 < BUTTON_COOLDOWN_SECONDS then
      (button_handler_group dbC6w 1 true 100 .updated (.sent 3)).1 = dbC6w
    else db_get_cooldown
      (button_handler_group dbC6w 1 true 100 .updated (.sent 3)).1 1 = 100) ∧
    db_get_cooldown
      (button_handler_group dbC6w 1 true 100 .updated (.sent 3)).1 2 =
      db_get_cooldown dbC6w 2 :=
  c6_throttle_gate dbC6w 1 2 100 .updated (.sent 3) (by decide)

/-- `INSERT OR IGNORE` makes its own key present. -/
theorem lookup_insertOrIgnore_self {α β : Type} [DecidableEq α]
    (l : List (α × β)) (k : α) (v : β) :
    (lookup (insertOrIgnore l k v) k).isSome = true := by
  by_cases h : (lookup l k).isSome = true
  · simp [insertOrIgnore, h]
  · have hnone : lookup l k = none := by
      cases hx : lookup l k
      · rfl
      · rw [hx] at h; exact absurd rfl h
    simp [insertOrIgnore, h, lookup_append, hnone, lookup_cons]

/-- `INSERT OR IGNORE` never removes a present key. -/
theorem lookup_insertOrIgnore_mono {α β : Type} [DecidableEq α]
    (l : List (α × β)) (k x : α) (v : β)
    (hx : (lookup l x).isSome = true) :
    (lookup (insertOrIgnore l k v) x).isSome = true := by
  by_cases h : (lookup l k).isSome = true
  · simpa [insertOrIgnore, h] using hx
  · obtain ⟨w, hw⟩ := Option.isSome_iff_exists.mp hx
    simp [insertOrIgnore, h, lookup_append, hw]

/-- Empty store for the C7 counterexample: the stats table has no rows
(no `init_db` has run). -/
def dbC7 : DB := ⟨[], [], []⟩

/-- C7 counterexample: the claim says `incrementCounter` either adds
exactly one (observable via `getCounter`) or fails.  `db_increment_stat`
is a bare `UPDATE`, so on a key with no row it completes successfully
while the observable value stays 0 — a silent drop. -/
theorem c7_increment_absent_key_silently_drops :
    db_get_stat (db_increment_stat dbC7 "updates_clicked") "updates_clicked" =
      db_get_stat dbC7 "updates_clicked" ∧
    db_get_stat (db_increment_stat dbC7 "updates_clicked") "updates_clicked" ≠
      db_get_stat dbC7 "updates_clicked" + 1 := by
  decide

/-- C7 (amended): for a counter name that has a row in the stats table —
in particular the two names `init_db` seeds, the only ones the program
ever increments — `db_increment_stat` increases the observable value by
exactly one; a name with no row is silently left at its default. -/
theorem c7_increment_present_key (db : DB) (k : String)
    (hk : (lookup db.stats k).isSome = true) :
    db_get_stat (db_increment_stat db k) k = db_get_stat db k + 1 ∧
    (lookup (init_db db).stats "updates_clicked").isSome = true ∧
    (lookup (init_db db).stats "auto_updates_processed").isSome = true := by
  refine ⟨stat_increment_self db k hk, ?_, ?_⟩
  · exact lookup_insertOrIgnore_mono _ _ _ _
      (lookup_insertOrIgnore_self db.stats "updates_clicked" 0)
  · exact lookup_insertOrIgnore_self _ _ _

/-- C7 witness on the freshly initialised store at `updates_clicked`. -/
theorem c7_increment_present_key_witness :
    db_get_stat (db_increment_stat (init_db dbC7) "updates_clicked")
      "updates_clicked" =
      db_get_stat (init_db dbC7) "updates_clicked" + 1 ∧
    (lookup (init_db (init_db dbC7)).stats "updates_clicked").isSome = true ∧
    (lookup (init_db (init_db dbC7)).stats "auto_updates_processed").isSome =
      true :=
  c7_increment_present_key (init_db dbC7) "updates_clicked" (by decide)

/-- C8 (confirmed): when `fetch_reservation_data` fails (returns `None`),
the sweep still reconciles every tracked chat rather than skipping it:
the rendered text is exactly the no-reservable-slots rendering, and —
given only classified transport failures and the program invariant that
stored message ids are real (nonzero) telegram ids — an edit with that
text is attempted for every tracked chat. -/
theorem c8_fetch_failure_still_reconciles (db : DB) (pd lt : String)
    (edit : Int → Int → EditResult) (send : Int → SendResult)
    (hnd : (db.group_schedules.map Prod.fst).Nodup)
    (hz : ∀ p ∈ db.group_schedules, p.2 ≠ 0)
    (hns : ∀ c ∈ db_get_all_active_groups db, ∀ m : Int,
      edit c m ≠ .transient ∧ (edit c m = .notFound → ∃ k, send c = .sent k)) :
    format_schedule_message pd lt none true =
      format_schedule_message pd lt (some []) true ∧
    ∀ c ∈ db_get_all_active_groups db,
      (c, format_schedule_message pd lt none true) ∈
        (auto_update_schedules db none pd lt edit send).attempted := by
  constructor
  · rfl
  · intro c hc
    have hnd2 : (db_get_all_active_groups db).Nodup := hnd
    have hsomem := lookup_isSome_of_mem_keys db.group_schedules c hc
    obtain ⟨mid, hmid⟩ := Option.isSome_iff_exists.mp hsomem
    have hmid2 : db_get_schedule_message db c = some mid := hmid
    have h0 : mid ≠ 0 :=
      hz (c, mid) (mem_of_lookup_some db.group_schedules c mid hmid)
    rw [auto_update_schedules_eq_loop db none pd lt edit send
      (active_ne_nil_of_mem db c hc)]
    exact auto_loop_attempts edit send _ _ db hnd2 hns c hc mid hmid2 h0

/-- Witness state for C8: chats 1 and 2 tracked. -/
def dbC8w : DB :=
  ⟨[(1, 10), (2, 20)], [],
    [("updates_clicked", 0), ("auto_updates_processed", 0)]⟩

/-- Transport for the C8 witness: all edits succeed. -/
def editC8w : Int → Int → EditResult := fun _ _ => .updated

/-- Send result for the C8 witness. -/
def sendC8w : Int → SendResult := fun _ => .sent 3

/-- C8 witness: with the feed down, chat 2 is still attempted with the
no-slots rendering. -/
theorem c8_fetch_failure_still_reconciles_witness :
    format_schedule_message "d" "t" none true =
      format_schedule_message "d" "t" (some []) true ∧
    (2, format_schedule_message "d" "t" none true) ∈
      (auto_update_schedules dbC8w none "d" "t" editC8w sendC8w).attempted :=
  ⟨(c8_fetch_failure_still_reconciles dbC8w "d" "t" editC8w sendC8w
      (by decide) (by decide) (by intro c hc m; simp [editC8w])).1,
    (c8_fetch_failure_still_reconciles dbC8w "d" "t" editC8w sendC8w
      (by decide) (by decide) (by intro c hc m; simp [editC8w])).2
      2 (by decide)⟩

/-- State for the C9 counterexample: chats 1 and 2 tracked. -/
def dbC9 : DB :=
  ⟨[(1, 10), (2, 20)], [],
    [("updates_clicked", 0), ("auto_updates_processed", 0)]⟩

/-- Broadcast sends for the C9 counterexample: chat 1 draws a plain
`BadRequest` (not permission-denied), chat 2 succeeds. -/
def sendC9 : Int → SendResult := fun c => if c = 1 then .badRequest else .sent 7

/-- Broadcast sends for the C9 counterexample, transient variant: chat 1
draws an uncaught transient error. -/
def sendC9t : Int → SendResult := fun c => if c = 1 then .transient else .sent 7

/-- C9 counterexample: (i) chat 1's send fails with `BadRequest`, which
is not permission-denied, yet its tracking is cleared — the claim's
"cleared exactly when permission-denied" fails; (ii) with a transient
send failure on chat 1 the loop dies: chat 2 is never attempted and the
tallies sum to 0, not to the number of tracked chats. -/
theorem c9_badrequest_clears_and_transient_aborts :
    (sendC9 1 = SendResult.badRequest ∧ sendC9 1 ≠ SendResult.forbidden ∧
      db_get_schedule_message (broadcast_command_body dbC9 sendC9).db 1 =
        none) ∧
    ((broadcast_command_body dbC9 sendC9t).attempted = [1] ∧
      (broadcast_command_body dbC9 sendC9t).successful_sends +
        (broadcast_command_body dbC9 sendC9t).failed_sends = 0 ∧
      (db_get_all_active_groups dbC9).length = 2) := by
  decide

/-- C9 (amended): when no send raises an uncaught (transient) error, the
broadcast attempts every tracked chat in order regardless of earlier
failures, its success / failure tallies sum to the number of tracked
chats, and a chat's tracking is cleared exactly when its send fails with
`Forbidden` or with `BadRequest` — both count as failed. -/
theorem c9_broadcast_accounting (db : DB) (send : Int → SendResult)
    (hnd : (db.group_schedules.map Prod.fst).Nodup)
    (hnt : ∀ c ∈ db_get_all_active_groups db, send c ≠ .transient) :
    (broadcast_command_body db send).aborted = false ∧
    (broadcast_command_body db send).attempted =
      db_get_all_active_groups db ∧
    (broadcast_command_body db send).successful_sends +
      (broadcast_command_body db send).failed_sends =
      (db_get_all_active_groups db).length ∧
    ∀ c ∈ db_get_all_active_groups db,
      (db_get_schedule_message (broadcast_command_body db send).db c = none ↔
        (send c = SendResult.forbidden ∨ send c = SendResult.badRequest)) := by
  have hnd2 : (db_get_all_active_groups db).Nodup := hnd
  obtain ⟨h1, h2, h3, h4⟩ :=
    broadcast_props send (db_get_all_active_groups db) db hnd2 hnt
  refine ⟨h1, h2, h3, ?_⟩
  intro c hc
  have hsomem : (db_get_schedule_message db c).isSome = true :=
    lookup_isSome_of_mem_keys db.group_schedules c hc
  have hfin := h4 c hc
  cases hs : send c with
  | sent m =>
    rw [hs] at hfin
    have hfin2 : db_get_schedule_message
        (broadcast_command_body db send).db c = db_get_schedule_message db c :=
      by simpa [broadcast_command_body] using hfin
    rw [hfin2]
    apply iff_of_false
    · intro hn
      rw [hn] at hsomem
      exact absurd hsomem (by simp)
    · rintro (h | h) <;> exact SendResult.noConfusion h
  | forbidden =>
    rw [hs] at hfin
    have hfin2 : db_get_schedule_message
        (broadcast_command_body db send).db c = none :=
      by simpa [broadcast_command_body] using hfin
    simp [hfin2]
  | badRequest =>
    rw [hs] at hfin
    have hfin2 : db_get_schedule_message
        (broadcast_command_body db send).db c = none :=
      by simpa [broadcast_command_body] using hfin
    simp [hfin2]
  | transient => exact absurd hs (hnt c hc)

/-- Witness state for C9: chats 1 and 2 tracked. -/
def dbC9w : DB :=
  ⟨[(1, 10), (2, 20)], [],
    [("updates_clicked", 0), ("auto_updates_processed", 0)]⟩

/-- Broadcast sends for the C9 witness: chat 1 draws `Forbidden`, chat 2
succeeds. -/
def sendC9w : Int → SendResult := fun c => if c = 1 then .forbidden else .sent 4

/-- C9 witness. -/
theorem c9_broadcast_accounting_witness :
    (broadcast_command_body dbC9w sendC9w).aborted = false ∧
    (broadcast_command_body dbC9w sendC9w).attempted =
      db_get_all_active_groups dbC9w ∧
    (broadcast_command_body dbC9w sendC9w).successful_sends +
      (broadcast_command_body dbC9w sendC9w).failed_sends =
      (db_get_all_active_groups dbC9w).length ∧
    (db_get_schedule_message (broadcast_command_body dbC9w sendC9w).db 1 =
        none ↔
      (sendC9w 1 = SendResult.forbidden ∨
        sendC9w 1 = SendResult.badRequest)) :=
  ⟨(c9_broadcast_accounting dbC9w sendC9w (by decide)
      (by intro c hc; fin_cases hc <;> simp [sendC9w])).1,
    (c9_broadcast_accounting dbC9w sendC9w (by decide)
      (by intro c hc; fin_cases hc <;> simp [sendC9w])).2.1,
    (c9_broadcast_accounting dbC9w sendC9w (by decide)
      (by intro c hc; fin_cases hc <;> simp [sendC9w])).2.2.1,
    (c9_broadcast_accounting dbC9w sendC9w (by decide)
      (by intro c hc; fin_cases hc <;> simp [sendC9w])).2.2.2 1 (by decide)⟩

/-- C10 (confirmed): for a user outside `ADMIN_IDS`, any `admin_only`
wrapped command leaves the store exactly as it was and produces the
single rejection reply; the result does not depend on the wrapped
handler, which is therefore never executed. -/
theorem c10_admin_gate_no_state_change (ids : List Int)
    (h1 h2 : DB → DB × List String) (u : Int) (db : DB) (hu : u ∉ ids) :
    admin_only ids h1 u db = (db, [rejection_text]) ∧
    admin_only ids h1 u db = admin_only ids h2 u db := by
  constructor <;> simp [admin_only, hu]

/-- Witness state for C10: chat 1 tracked. -/
def dbC10w : DB := ⟨[(1, 10)], [(1, 7)], [("updates_clicked", 3)]⟩

/-- A handler that would mutate the store, for the C10 witness. -/
def handlerC10a : DB → DB × List String :=
  fun db => (db_remove_schedule_message db 1, [])

/-- A second handler with different replies, for the C10 witness. -/
def handlerC10b : DB → DB × List String := fun db => (db, ["x"])

/-- C10 witness: user 2 is not in the admin list [5]. -/
theorem c10_admin_gate_no_state_change_witness :
    admin_only [5] handlerC10a 2 dbC10w = (dbC10w, [rejection_text]) ∧
    admin_only [5] handlerC10a 2 dbC10w =
      admin_only [5] handlerC10b 2 dbC10w :=
  c10_admin_gate_no_state_change [5] handlerC10a handlerC10b 2 dbC10w
    (by decide)

end ArsesBot
